import Mathlib

/-!
Verification of `update_pyproject.py` (valberg/update-pyproject).

Python strings are modelled as `List Char`.  The Python string operations used
by the script (`str.split`, `str.join`, `in`, `str.replace`, slicing `[:-1]`)
are embedded below with Python's semantics (non-overlapping left-to-right
matching for `split`/`replace`).  A raised exception (`ValueError` from tuple
unpacking, or a failed network lookup) is modelled as `none`; the PyPI lookup
(`urllib.request.urlopen` + JSON decoding, an external collaborator) is a
parameter `lookup : List Char → Option (List Char)` where `none` models any
lookup failure.  File system and console effects of `check_for_updates` are
modelled by returning the list of printed messages and the optionally written
file content.  Messages printed before an aborting lookup failure are not
modelled (the aborted run is collapsed to `none`); no claim below depends on
them.
-/

/-- Python `s.split(sep)` worker, structurally recursive on a fuel argument
(`fuel ≥ s.length` at every call site): non-overlapping, left-to-right.
`acc` holds the (reversed) characters of the current chunk. -/
def splitAux (sep : List Char) : Nat → List Char → List Char → List (List Char)
  | _, [], acc => [acc.reverse]
  | 0, s, acc => [acc.reverse ++ s]
  | fuel + 1, c :: rest, acc =>
    if sep.isPrefixOf (c :: rest) then
      acc.reverse :: splitAux sep fuel (List.drop sep.length (c :: rest)) []
    else
      splitAux sep fuel rest (c :: acc)

/-- Python `s.split(sep)` for a non-empty separator (the script only ever
splits on `"=="`, `">="`, `"<="`, `"~="`, `"["` and `","`). -/
def pysplit (s sep : List Char) : List (List Char) :=
  if sep.isEmpty then [s] else splitAux sep s.length s []

/-- Python `sep.join(parts)`. -/
def pyjoin (sep : List Char) : List (List Char) → List Char
  | [] => []
  | [x] => x
  | x :: y :: rest => x ++ sep ++ pyjoin sep (y :: rest)

/-- Python `sub in s` (substring containment). -/
def pyin (sub : List Char) : List Char → Bool
  | [] => sub.isEmpty
  | c :: rest => sub.isPrefixOf (c :: rest) || pyin sub rest

/-- Python `s.replace(old, new)` worker (non-overlapping, left-to-right),
structurally recursive on fuel (`fuel ≥ s.length` at every call site). -/
def replaceAux (old new : List Char) : Nat → List Char → List Char
  | _, [] => []
  | 0, s => s
  | fuel + 1, c :: rest =>
    if old.isPrefixOf (c :: rest) then
      new ++ replaceAux old new fuel (List.drop old.length (c :: rest))
    else
      c :: replaceAux old new fuel rest

/-- Python `s.replace(old, new)`; an empty `old` inserts `new` at every
position, as in Python. -/
def pyreplace (s old new : List Char) : List Char :=
  if old.isEmpty then new ++ (s.map (fun c => c :: new)).flatten
  else replaceAux old new s.length s

/-- Rendering of a `str | None` value inside a Python f-string:
`None` prints as the four characters `None`. -/
def renderOpt : Option (List Char) → List Char
  | none => "None".toList
  | some v => v

/-- The dataclass `Package` of `update_pyproject.py` (lines 12-20):
name, declared version, extras, delimiter, and the `latest_version`
field that is `None` until `has_newer_version` populates it. -/
structure Package where
  name : List Char
  version : Option (List Char)
  extras : List (List Char)
  delimiter : List Char
  latest_version : Option (List Char) := none
deriving DecidableEq

/-- The tuple `possible_delimiters = ("==", ">=", "<=", "~=")` (line 29), in
priority order. -/
def possible_delimiters : List (List Char) :=
  ["==".toList, ">=".toList, "<=".toList, "~=".toList]

/-- The delimiter-detection loop of `Package.from_string` (lines 31-36): the
first member of `possible_delimiters` occurring as a substring, if any. -/
def findDelimiter (s : List Char) : Option (List Char) :=
  List.find? (fun d => pyin d s) possible_delimiters

/-- Lines 49-58 of `Package.from_string`: split the left part on `"["` into
name and extras (`extras = extras[:-1].split(",")`).  Python's tuple
unpacking `package_name, extras = package_name_parts` raises `ValueError`
when the split yields more than two parts; that is the `none` case. -/
def fromLeftPart (package_name : List Char) (version : Option (List Char))
    (delimiter : List Char) : Option Package :=
  match pysplit package_name ("[".toList) with
  | [name] =>
      some { name := name, version := version, extras := [], delimiter := delimiter }
  | [name, extrasPart] =>
      some { name := name, version := version,
             extras := pysplit extrasPart.dropLast (",".toList), delimiter := delimiter }
  | _ => none

/-- Embedding of `Package.from_string` (lines 22-58).  The delimiter defaults to `"=="`
when none of the four operators occurs (lines 38-39).  Python's unpacking
`package_name, version = package_parts` raises `ValueError` when the split
yields more than two parts; that (and the impossible empty split) is the
`none` case. -/
def from_string (s : List Char) : Option Package :=
  let delimiter := (findDelimiter s).getD ("==".toList)
  match pysplit s delimiter with
  | [package_name, version] => fromLeftPart package_name (some version) delimiter
  | [package_name] => fromLeftPart package_name none delimiter
  | _ => none

/-- Embedding of `Package.has_newer_version` (lines 68-73), with the PyPI call
(`get_latest_version`) abstracted as `lookup` (`none` = lookup failure,
which propagates).  Python's `if not self.version` is truthiness: it is
taken both for `None` and for the empty string.  On success the method
returns the comparison result and the package with `latest_version`
assigned. -/
def has_newer_version (lookup : List Char → Option (List Char)) (p : Package) :
    Option (Bool × Package) :=
  match p.version with
  | none => some (true, p)
  | some v =>
    if v.isEmpty then some (true, p)
    else
      match lookup p.name with
      | none => none
      | some lv => some (lv != v, { p with latest_version := some lv })

/-- Embedding of `Package.__str__` (lines 75-80): `name[e1,e2]<delimiter><version>`, the
bracket segment omitted when `extras` is empty (Python truthiness of a
list); a `None` version renders as the text `None` in the f-string. -/
def pystr (p : Package) : List Char :=
  let extras_string : List Char :=
    if p.extras.isEmpty then []
    else "[".toList ++ pyjoin (",".toList) p.extras ++ "]".toList
  p.name ++ extras_string ++ p.delimiter ++ renderOpt p.version

/-- Embedding of `Package.updated_string` (lines 82-87): always the literal `==` operator
and the `latest_version` field (rendered as `None` when unset). -/
def updated_string (p : Package) : List Char :=
  let extras_string : List Char :=
    if p.extras.isEmpty then []
    else "[".toList ++ pyjoin (",".toList) p.extras ++ "]".toList
  p.name ++ extras_string ++ "==".toList ++ renderOpt p.latest_version

/-- The `[project]` table of the parsed TOML document, as far as the script
inspects it: possibly carrying a `dependencies` list of specifier strings. -/
structure ProjectTable where
  dependencies : Option (List (List Char))
deriving DecidableEq

/-- The parsed TOML document (`tomllib.loads` is an external collaborator;
only the presence of `project` and `project.dependencies` matters). -/
structure PyProject where
  project : Option ProjectTable
deriving DecidableEq

/-- Observable outcome of one `check_for_updates` run: the printed lines, and
the content written back to the file (`none` when no write happened). -/
structure RunResult where
  messages : List (List Char)
  written : Option (List Char)
deriving DecidableEq

/-- The message of lines 110-113, printed for a package with a newer
version. -/
def newerMessage (p : Package) : List Char :=
  "Newer version of ".toList ++ p.name ++ " available: ".toList ++
    renderOpt p.latest_version ++ " (currently ".toList ++
    renderOpt p.version ++ ")".toList

/-- The parsing loop of lines 102-106: build one `Package` per dependency
string; a `ValueError` from `from_string` propagates (`none`). -/
def parsePackages : List (List Char) → Option (List Package)
  | [] => some []
  | s :: rest =>
    match from_string s with
    | none => none
    | some p =>
      match parsePackages rest with
      | none => none
      | some ps => some (p :: ps)

/-- The update loop of lines 108-116, threading the raw file content, the
`updated` flag and the printed messages; a lookup failure propagates
(`none`). -/
def processPackages (lookup : List Char → Option (List Char)) :
    List Package → List Char → Bool → List (List Char) →
    Option (List (List Char) × List Char × Bool)
  | [], content, updated, msgs => some (msgs, content, updated)
  | p :: rest, content, updated, msgs =>
    match has_newer_version lookup p with
    | none => none
    | some (b, p2) =>
      if b then
        processPackages lookup rest
          (pyreplace content (pystr p2) (updated_string p2)) true
          (msgs ++ [newerMessage p2])
      else
        processPackages lookup rest content updated msgs

/-- Embedding of `check_for_updates` (lines 90-126).  The raw file content and its parsed
structure are separate inputs (reading and TOML-parsing the file are
external); `update_file` is the persist flag.  `none` models an exception
escaping the function (parse `ValueError` or lookup failure). -/
def check_for_updates (pyproject_content : List Char) (pyproject : PyProject)
    (lookup : List Char → Option (List Char)) (update_file : Bool) :
    Option RunResult :=
  match Option.bind pyproject.project ProjectTable.dependencies with
  | none => some { messages := ["Invalid pyproject.toml file.".toList], written := none }
  | some deps =>
    match parsePackages deps with
    | none => none
    | some packages =>
      match processPackages lookup packages pyproject_content false [] with
      | none => none
      | some (msgs, content2, updated) =>
        if updated then
          if update_file then
            some { messages := msgs ++ ["Updating pyproject.toml file...".toList],
                   written := some content2 }
          else
            some { messages :=
                     msgs ++ ["Run with --update/-u to update the pyproject.toml file.".toList],
                   written := none }
        else
          some { messages := msgs ++ ["No updates found.".toList], written := none }

/-- The file-write effect of a run: the content written, if any (`none` both
when the run aborted with an exception and when it completed without
writing). -/
def writtenOf : Option RunResult → Option (List Char)
  | none => none
  | some r => r.written

/-! ### Helper predicates used to state the amended claims -/

/-- The delimiter `Package.from_string` ends up using for an input (the
priority-selected operator, defaulting to `"=="`). -/
def delimOf (s : List Char) : List Char := (findDelimiter s).getD ("==".toList)

/-- The left part of a specifier is bracket-well-formed: it contains no `[`
at all, or exactly one `[` whose extras segment ends in `]` (so that the
`extras[:-1]` slice of the source strips exactly that `]`). -/
def bracketOk (l : List Char) : Bool :=
  match pysplit l ("[".toList) with
  | [_] => true
  | [_, ex] => ex.dropLast ++ "]".toList == ex
  | _ => false

/-- A dependency string that parses to a record pinned (non-empty declared
version) to exactly the latest version the lookup reports for its name. -/
def pinnedToLatest (lookup : List Char → Option (List Char)) (s : List Char) : Bool :=
  match from_string s with
  | none => false
  | some p =>
    match p.version with
    | none => false
    | some v => !v.isEmpty && (lookup p.name == some v)

/-! ### Lemmas about the embedded Python string operations -/

/-- The worker `splitAux` never returns the empty list of chunks. -/
theorem splitAux_ne_nil (sep : List Char) :
    ∀ (fuel : Nat) (s acc : List Char), splitAux sep fuel s acc ≠ [] := by
  intro fuel
  induction fuel with
  | zero => intro s acc; cases s <;> simp [splitAux]
  | succ n ih =>
    intro s acc
    cases s with
    | nil => simp [splitAux]
    | cons c rest =>
      simp only [splitAux]
      by_cases hp : sep.isPrefixOf (c :: rest) <;> simp [hp, ih]

/-- Joining the chunks of `splitAux` with the separator restores the input
(with the pending accumulator in front). -/
theorem pyjoin_splitAux (sep : List Char) :
    ∀ (fuel : Nat) (s acc : List Char),
      pyjoin sep (splitAux sep fuel s acc) = acc.reverse ++ s := by
  intro fuel
  induction fuel with
  | zero =>
    intro s acc
    cases s with
    | nil => simp [splitAux, pyjoin]
    | cons c rest => simp [splitAux, pyjoin]
  | succ n ih =>
    intro s acc
    cases s with
    | nil => simp [splitAux, pyjoin]
    | cons c rest =>
      simp only [splitAux]
      by_cases hp : sep.isPrefixOf (c :: rest)
      · rw [if_pos hp]
        obtain ⟨a, l2, hal⟩ :=
          List.exists_cons_of_ne_nil
            (splitAux_ne_nil sep n (List.drop sep.length (c :: rest)) [])
        have h2 := ih (List.drop sep.length (c :: rest)) []
        rw [hal] at h2 ⊢
        simp only [List.reverse_nil, List.nil_append] at h2
        obtain ⟨t, ht⟩ := ( List.isPrefixOf_iff_prefix).mp hp
        have hdrop : List.drop sep.length (c :: rest) = t := by
          rw [← ht, List.drop_left]
        rw [pyjoin, h2, hdrop, ← ht]
        simp [List.append_assoc]
      · rw [if_neg hp]
        rw [ih rest (c :: acc)]
        simp

/-- Python `sep.join(s.split(sep)) == s`. -/
theorem pyjoin_pysplit (s sep : List Char) : pyjoin sep (pysplit s sep) = s := by
  unfold pysplit
  by_cases h : sep.isEmpty
  · simp [h, pyjoin]
  · simp only [h, if_false]
    simpa using pyjoin_splitAux sep s.length s []

/-- Python `split` never returns an empty list of chunks. -/
theorem pysplit_ne_nil (s sep : List Char) : pysplit s sep ≠ [] := by
  unfold pysplit
  by_cases h : sep.isEmpty
  · simp [h]
  · simp only [h, if_false]
    exact splitAux_ne_nil sep s.length s []

/-- Core round-trip lemma: when the priority-selected delimiter splits the
input into exactly two parts and the left part is bracket-well-formed,
`from_string` succeeds and `__str__` reproduces the input verbatim. -/
theorem pystr_round_trip (s d l r : List Char)
    (hd : findDelimiter s = some d)
    (hsplit : pysplit s d = [l, r])
    (hbr : bracketOk l = true) :
    ∃ p, from_string s = some p ∧ pystr p = s := by
  have hs : s = l ++ d ++ r := by
    have hj := pyjoin_pysplit s d
    rw [hsplit] at hj
    simp only [pyjoin] at hj
    exact hj.symm
  unfold bracketOk at hbr
  cases hlp : pysplit l ("[".toList) with
  | nil => rw [hlp] at hbr; simp at hbr
  | cons n t =>
    cases t with
    | nil =>
      have hnl : n = l := by
        have hj := pyjoin_pysplit l ("[".toList)
        rw [hlp] at hj
        simpa [pyjoin] using hj
      refine ⟨{ name := n, version := some r, extras := [], delimiter := d }, ?_, ?_⟩
      · simp only [from_string, hd, Option.getD_some, hsplit, fromLeftPart, hlp]
      · simp [pystr, renderOpt, hnl, hs, List.append_assoc]
    | cons ex t2 =>
      cases t2 with
      | nil =>
        rw [hlp] at hbr
        have hex : ex.dropLast ++ "]".toList = ex := by simpa using hbr
        have hnl : n ++ "[".toList ++ ex = l := by
          have hj := pyjoin_pysplit l ("[".toList)
          rw [hlp] at hj
          simpa [pyjoin] using hj
        have hjex : pyjoin (",".toList) (pysplit ex.dropLast (",".toList)) = ex.dropLast :=
          pyjoin_pysplit ex.dropLast (",".toList)
        obtain ⟨e0, es, hes⟩ :=
          List.exists_cons_of_ne_nil (pysplit_ne_nil ex.dropLast (",".toList))
        have hie : (pysplit ex.dropLast (",".toList)).isEmpty = false := by
          rw [hes]; rfl
        refine ⟨{ name := n, version := some r,
                  extras := pysplit ex.dropLast (",".toList), delimiter := d }, ?_, ?_⟩
        · simp only [from_string, hd, Option.getD_some, hsplit, fromLeftPart, hlp]
        · simp only [pystr, renderOpt, hie, Bool.false_eq_true, if_false, hjex]
          rw [hs, ← hnl, ← hex]
          simp [List.append_assoc]
      | cons _ _ => rw [hlp] at hbr; simp at hbr

/-- When the priority-selected delimiter splits the input into exactly two
parts, those parts reassemble to the input, and any successfully parsed
record has that delimiter, the right part as its declared version, and
name/extras obtained from the left part. -/
theorem from_string_split_spec (s d l r : List Char)
    (hd : findDelimiter s = some d) (hsplit : pysplit s d = [l, r]) :
    s = l ++ d ++ r ∧
    ∀ p, from_string s = some p →
      p.delimiter = d ∧ p.version = some r ∧
      ((p.extras = [] ∧ p.name = l) ∨
       ∃ ex, pysplit l ("[".toList) = [p.name, ex] ∧
             p.extras = pysplit ex.dropLast (",".toList)) := by
  constructor
  · have hj := pyjoin_pysplit s d
    rw [hsplit] at hj
    simp only [pyjoin] at hj
    exact hj.symm
  · intro p hp
    simp only [from_string, hd, Option.getD_some, hsplit, fromLeftPart] at hp
    cases hlp : pysplit l ("[".toList) with
    | nil => rw [hlp] at hp; simp at hp
    | cons n t =>
      cases t with
      | nil =>
        rw [hlp] at hp
        simp only [Option.some.injEq] at hp
        subst hp
        have hnl : n = l := by
          have hj := pyjoin_pysplit l ("[".toList)
          rw [hlp] at hj
          simpa [pyjoin] using hj
        exact ⟨rfl, rfl, Or.inl ⟨rfl, hnl⟩⟩
      | cons ex t2 =>
        cases t2 with
        | nil =>
          rw [hlp] at hp
          simp only [Option.some.injEq] at hp
          subst hp
          exact ⟨rfl, rfl, Or.inr ⟨ex, rfl, rfl⟩⟩
        | cons _ _ => rw [hlp] at hp; simp at hp

/-! ### Claim C1 — render-as-declared equals the parsed substring -/

/-- Claim C1 counterexample: the claim quantifies over all entries,
"including entries with no operator and no version".  The entry
`requests` parses (name `requests`, no version, delimiter defaulted to
`==`), but `__str__` renders the f-string `None` for the absent version,
producing `requests==None`, which is not the original substring — so the
literal replacement performed by `check_for_updates` targets text that
never occurred in the file. -/
theorem c1_counterexample :
    from_string ("requests".toList) =
      some { name := "requests".toList, version := none, extras := [],
             delimiter := "==".toList } ∧
    (from_string ("requests".toList)).map pystr = some ("requests==None".toList) ∧
    some ("requests==None".toList) ≠ some ("requests".toList) := by
  refine ⟨by decide, by decide, by decide⟩

/-- Claim C1 (amended): for entries in which the priority-selected operator
occurs (so the split on it yields exactly two parts) and whose left part is
bracket-well-formed, the record's rendered form using its declared version
is exactly the parsed substring. -/
theorem c1_render_matches_source_amended (s d l r : List Char)
    (hd : findDelimiter s = some d)
    (hsplit : pysplit s d = [l, r])
    (hbr : bracketOk l = true) :
    ∃ p, from_string s = some p ∧ pystr p = s :=
  pystr_round_trip s d l r hd hsplit hbr

/-- Claim C1 witness: the amended round-trip at `req[sock]==2.0`. -/
theorem c1_render_matches_source_witness :
    findDelimiter ("req[sock]==2.0".toList) = some ("==".toList) ∧
    pysplit ("req[sock]==2.0".toList) ("==".toList) = ["req[sock]".toList, "2.0".toList] ∧
    bracketOk ("req[sock]".toList) = true ∧
    ∃ p, from_string ("req[sock]==2.0".toList) = some p ∧
         pystr p = "req[sock]==2.0".toList :=
  ⟨by decide, by decide, by decide,
   c1_render_matches_source_amended ("req[sock]==2.0".toList) ("==".toList)
     ("req[sock]".toList) ("2.0".toList) (by decide) (by decide) (by decide)⟩

/-! ### Claim C2 — totality of parsing -/

/-- Claim C2 counterexample: parsing is not total.  Python's tuple
unpacking raises `ValueError` when the chosen operator occurs more than
once (`a==b==c`: `split` yields three parts) or when the left part
contains more than one `[` (`x[y[z==1`). -/
theorem c2_counterexample :
    from_string ("a==b==c".toList) = none ∧
    from_string ("x[y[z==1".toList) = none := by
  refine ⟨by decide, by decide⟩

/-- Claim C2 (amended): parsing succeeds and returns a populated record for
every input in which the selected delimiter occurs at most once (the split
on it yields one or two parts) and the part left of it contains at most one
`[`; for other inputs the tuple unpacking raises `ValueError`. -/
theorem c2_parse_total_amended (s l : List Char)
    (hparts : pysplit s (delimOf s) = [l] ∨ ∃ r, pysplit s (delimOf s) = [l, r])
    (hbr : (pysplit l ("[".toList)).length ≤ 2) :
    ∃ p, from_string s = some p := by
  have hleft : ∀ v : Option (List Char), ∃ p, fromLeftPart l v (delimOf s) = some p := by
    intro v
    unfold fromLeftPart
    cases hlp : pysplit l ("[".toList) with
    | nil => exact absurd hlp (pysplit_ne_nil l ("[".toList))
    | cons n t =>
      cases t with
      | nil => exact ⟨_, rfl⟩
      | cons ex t2 =>
        cases t2 with
        | nil => exact ⟨_, rfl⟩
        | cons x t3 => rw [hlp] at hbr; simp at hbr
  rcases hparts with h1 | ⟨r, h2⟩
  · obtain ⟨p, hp⟩ := hleft none
    refine ⟨p, ?_⟩
    simp only [delimOf] at h1 hp
    simp only [from_string]
    rw [h1]
    exact hp
  · obtain ⟨p, hp⟩ := hleft (some r)
    refine ⟨p, ?_⟩
    simp only [delimOf] at h2 hp
    simp only [from_string]
    rw [h2]
    exact hp

/-- Claim C2 witness: the amended totality at `lib~=3.1`. -/
theorem c2_parse_total_witness :
    pysplit ("lib~=3.1".toList) (delimOf ("lib~=3.1".toList)) =
      ["lib".toList, "3.1".toList] ∧
    (pysplit ("lib".toList) ("[".toList)).length ≤ 2 ∧
    ∃ p, from_string ("lib~=3.1".toList) = some p :=
  ⟨by decide, by decide,
   c2_parse_total_amended ("lib~=3.1".toList) ("lib".toList)
     (Or.inr ⟨"3.1".toList, by decide⟩) (by decide)⟩

/-! ### Claim C3 — round-trip for operator-carrying specifiers -/

/-- Claim C3 counterexample: `a[x==1` contains the operator `==`, yet
parsing and rendering does not reproduce it: the left part `a[x` is split
at `[`, the slice `extras[:-1]` strips the final `x` (not a `]`), and the
record renders back as `a[]==1`. -/
theorem c3_counterexample :
    pyin ("==".toList) ("a[x==1".toList) = true ∧
    (from_string ("a[x==1".toList)).map pystr = some ("a[]==1".toList) ∧
    some ("a[]==1".toList) ≠ some ("a[x==1".toList) := by
  refine ⟨by decide, by decide, by decide⟩

/-- Claim C3 (amended): for every specifier string in which the
priority-selected operator occurs exactly once (the split on it yields
exactly two parts) and whose left part is bracket-well-formed, parsing
with `from_string` and rendering with `__str__` reproduces the original
string character for character. -/
theorem c3_round_trip_amended (s d l r : List Char)
    (hd : findDelimiter s = some d)
    (hsplit : pysplit s d = [l, r])
    (hbr : bracketOk l = true) :
    (from_string s).map pystr = some s := by
  obtain ⟨p, hp, hps⟩ := pystr_round_trip s d l r hd hsplit hbr
  rw [hp]
  simp [hps]

/-- Claim C3 witness: the amended round-trip at `tomli~=2.0.1`. -/
theorem c3_round_trip_witness :
    findDelimiter ("tomli~=2.0.1".toList) = some ("~=".toList) ∧
    pysplit ("tomli~=2.0.1".toList) ("~=".toList) = ["tomli".toList, "2.0.1".toList] ∧
    bracketOk ("tomli".toList) = true ∧
    (from_string ("tomli~=2.0.1".toList)).map pystr = some ("tomli~=2.0.1".toList) :=
  ⟨by decide, by decide, by decide,
   c3_round_trip_amended ("tomli~=2.0.1".toList) ("~=".toList)
     ("tomli".toList) ("2.0.1".toList) (by decide) (by decide) (by decide)⟩

/-! ### Claim C4 — operator selection and splitting -/

/-- Claim C4 counterexample: `x<=1<=2` contains the operator `<=`, but the
parser does not split it at the first occurrence into a left part and a
version — Python's `split` yields three parts and the unpacking raises
`ValueError`, so no record (and no split outcome) is produced at all. -/
theorem c4_counterexample :
    pyin ("<=".toList) ("x<=1<=2".toList) = true ∧
    from_string ("x<=1<=2".toList) = none := by
  refine ⟨by decide, by decide⟩

/-- Claim C4 (amended): for every input containing at least one of the four
operator substrings, the operator is selected by scanning `==`, `>=`, `<=`,
`~=` in that priority order (not by leftmost position); when the selected
operator occurs exactly once, the string splits at it into a left part and
a right part that reassemble to the input, and any successfully parsed
record carries that operator, the right part as its declared version, and
name/extras obtained from the left part (when the selected operator occurs
more than once the unpacking raises instead, see the counterexample). -/
theorem c4_operator_selection_amended (s : List Char)
    (hop : (pyin ("==".toList) s || pyin (">=".toList) s ||
            pyin ("<=".toList) s || pyin ("~=".toList) s) = true) :
    ∃ d, findDelimiter s = some d ∧
      (pyin ("==".toList) s = true → d = "==".toList) ∧
      (pyin ("==".toList) s = false → pyin (">=".toList) s = true → d = ">=".toList) ∧
      (pyin ("==".toList) s = false → pyin (">=".toList) s = false →
        pyin ("<=".toList) s = true → d = "<=".toList) ∧
      (pyin ("==".toList) s = false → pyin (">=".toList) s = false →
        pyin ("<=".toList) s = false → d = "~=".toList) ∧
      ∀ l r, pysplit s d = [l, r] →
        s = l ++ d ++ r ∧
        ∀ p, from_string s = some p →
          p.delimiter = d ∧ p.version = some r ∧
          ((p.extras = [] ∧ p.name = l) ∨
           ∃ ex, pysplit l ("[".toList) = [p.name, ex] ∧
                 p.extras = pysplit ex.dropLast (",".toList)) := by
  by_cases h1 : pyin ("==".toList) s = true
  · have h1' : pyin ['=', '='] s = true := h1
    have hd : findDelimiter s = some ("==".toList) := by
      simp [findDelimiter, possible_delimiters, List.find?, h1']
    refine ⟨_, hd, fun _ => rfl, ?_, ?_, ?_, ?_⟩
    · intro hc _; rw [h1] at hc; cases hc
    · intro hc _ _; rw [h1] at hc; cases hc
    · intro hc _ _; rw [h1] at hc; cases hc
    · intro l r hs; exact from_string_split_spec s _ l r hd hs
  · rw [Bool.not_eq_true] at h1
    by_cases h2 : pyin (">=".toList) s = true
    · have h1' : pyin ['=', '='] s = false := h1
      have h2' : pyin ['>', '='] s = true := h2
      have hd : findDelimiter s = some (">=".toList) := by
        simp [findDelimiter, possible_delimiters, List.find?, h1', h2']
      refine ⟨_, hd, ?_, fun _ _ => rfl, ?_, ?_, ?_⟩
      · intro hc; rw [h1] at hc; cases hc
      · intro _ hc _; rw [h2] at hc; cases hc
      · intro _ hc _; rw [h2] at hc; cases hc
      · intro l r hs; exact from_string_split_spec s _ l r hd hs
    · rw [Bool.not_eq_true] at h2
      by_cases h3 : pyin ("<=".toList) s = true
      · have h1' : pyin ['=', '='] s = false := h1
        have h2' : pyin ['>', '='] s = false := h2
        have h3' : pyin ['<', '='] s = true := h3
        have hd : findDelimiter s = some ("<=".toList) := by
          simp [findDelimiter, possible_delimiters, List.find?, h1', h2', h3']
        refine ⟨_, hd, ?_, ?_, fun _ _ _ => rfl, ?_, ?_⟩
        · intro hc; rw [h1] at hc; cases hc
        · intro _ hc; rw [h2] at hc; cases hc
        · intro _ _ hc; rw [h3] at hc; cases hc
        · intro l r hs; exact from_string_split_spec s _ l r hd hs
      · rw [Bool.not_eq_true] at h3
        have h4 : pyin ("~=".toList) s = true := by
          rw [h1, h2, h3] at hop
          simpa using hop
        have h1' : pyin ['=', '='] s = false := h1
        have h2' : pyin ['>', '='] s = false := h2
        have h3' : pyin ['<', '='] s = false := h3
        have h4' : pyin ['~', '='] s = true := h4
        have hd : findDelimiter s = some ("~=".toList) := by
          simp [findDelimiter, possible_delimiters, List.find?, h1', h2', h3', h4']
        refine ⟨_, hd, ?_, ?_, ?_, fun _ _ _ => rfl, ?_⟩
        · intro hc; rw [h1] at hc; cases hc
        · intro _ hc; rw [h2] at hc; cases hc
        · intro _ _ hc; rw [h3] at hc; cases hc
        · intro l r hs; exact from_string_split_spec s _ l r hd hs

/-- Claim C4 witness: `flask<=2.0,>=1.0` contains both `<=` (leftmost) and
`>=`; priority selects `>=`, which occurs once, splitting into
`flask<=2.0,` and `1.0`. -/
theorem c4_operator_selection_witness :
    (pyin ("==".toList) ("flask<=2.0,>=1.0".toList) ||
     pyin (">=".toList) ("flask<=2.0,>=1.0".toList) ||
     pyin ("<=".toList) ("flask<=2.0,>=1.0".toList) ||
     pyin ("~=".toList) ("flask<=2.0,>=1.0".toList)) = true ∧
    ∃ d, findDelimiter ("flask<=2.0,>=1.0".toList) = some d ∧
      (pyin ("==".toList) ("flask<=2.0,>=1.0".toList) = true → d = "==".toList) ∧
      (pyin ("==".toList) ("flask<=2.0,>=1.0".toList) = false →
        pyin (">=".toList) ("flask<=2.0,>=1.0".toList) = true → d = ">=".toList) ∧
      (pyin ("==".toList) ("flask<=2.0,>=1.0".toList) = false →
        pyin (">=".toList) ("flask<=2.0,>=1.0".toList) = false →
        pyin ("<=".toList) ("flask<=2.0,>=1.0".toList) = true → d = "<=".toList) ∧
      (pyin ("==".toList) ("flask<=2.0,>=1.0".toList) = false →
        pyin (">=".toList) ("flask<=2.0,>=1.0".toList) = false →
        pyin ("<=".toList) ("flask<=2.0,>=1.0".toList) = false → d = "~=".toList) ∧
      ∀ l r, pysplit ("flask<=2.0,>=1.0".toList) d = [l, r] →
        "flask<=2.0,>=1.0".toList = l ++ d ++ r ∧
        ∀ p, from_string ("flask<=2.0,>=1.0".toList) = some p →
          p.delimiter = d ∧ p.version = some r ∧
          ((p.extras = [] ∧ p.name = l) ∨
           ∃ ex, pysplit l ("[".toList) = [p.name, ex] ∧
                 p.extras = pysplit ex.dropLast (",".toList)) :=
  ⟨by decide, c4_operator_selection_amended ("flask<=2.0,>=1.0".toList) (by decide)⟩

/-! ### Claim C5 — the "updated" rendering -/

/-- Claim C5: `updated_string` renders name, then the extras bracket segment
in parsed order (omitted when extras is empty), then the literal `==`
regardless of the parsed operator, then the resolved latest version; and
the two spec examples: `pkg>=1.0` with latest `2.0` renders `pkg==2.0`,
and `pkg[a,b]==1.0` parses to (name `pkg`, extras `[a,b]`, operator `==`,
version `1.0`) and renders updated with latest `2.0` as `pkg[a,b]==2.0`. -/
theorem c5_updated_rendering :
    (∀ (p : Package) (v : List Char), p.latest_version = some v →
      updated_string p =
        p.name ++
          (if p.extras.isEmpty then []
           else "[".toList ++ pyjoin (",".toList) p.extras ++ "]".toList) ++
          "==".toList ++ v) ∧
    Option.map (fun bp : Bool × Package => updated_string bp.2)
      (Option.bind (from_string ("pkg>=1.0".toList))
        (has_newer_version (fun _ => some ("2.0".toList)))) =
      some ("pkg==2.0".toList) ∧
    from_string ("pkg[a,b]==1.0".toList) =
      some { name := "pkg".toList, version := some ("1.0".toList),
             extras := ["a".toList, "b".toList], delimiter := "==".toList } ∧
    Option.map (fun bp : Bool × Package => updated_string bp.2)
      (Option.bind (from_string ("pkg[a,b]==1.0".toList))
        (has_newer_version (fun _ => some ("2.0".toList)))) =
      some ("pkg[a,b]==2.0".toList) := by
  refine ⟨?_, by decide, by decide, by decide⟩
  intro p v h
  simp [updated_string, renderOpt, h]

/-- Claim C5 witness: the general rendering clause instantiated at a record
with a populated `latest_version`. -/
theorem c5_updated_rendering_witness :
    ({ name := "w".toList, version := some ("1".toList), extras := [],
       delimiter := ">=".toList, latest_version := some ("9".toList) } :
        Package).latest_version = some ("9".toList) ∧
    updated_string
      { name := "w".toList, version := some ("1".toList), extras := [],
        delimiter := ">=".toList, latest_version := some ("9".toList) } =
      "w".toList ++
        (if ([] : List (List Char)).isEmpty then []
         else "[".toList ++ pyjoin (",".toList) [] ++ "]".toList) ++
        "==".toList ++ "9".toList :=
  ⟨rfl,
   c5_updated_rendering.1
     { name := "w".toList, version := some ("1".toList), extras := [],
       delimiter := ">=".toList, latest_version := some ("9".toList) }
     ("9".toList) rfl⟩

/-! ### Claim C6 — absent declared version always reports newer -/

/-- Claim C6: for a record with no declared version, `has_newer_version`
returns `True` unconditionally and leaves the record untouched: the result
is independent of the lookup (which is never consulted — it holds even for
a lookup that always fails) and `latest_version` remains as it was
(unset for any parsed record). -/
theorem c6_no_version_always_newer
    (lookup : List Char → Option (List Char)) (p : Package)
    (h : p.version = none) :
    has_newer_version lookup p = some (true, p) := by
  simp [has_newer_version, h]

/-- Claim C6 witness: the record parsed from `requests`, checked against a
lookup that always fails: the result is still `True` and the record is
unchanged, with `latest_version` still unset. -/
theorem c6_no_version_always_newer_witness :
    ({ name := "requests".toList, version := none, extras := [],
       delimiter := "==".toList } : Package).version = none ∧
    has_newer_version (fun _ => none)
      { name := "requests".toList, version := none, extras := [],
        delimiter := "==".toList } =
      some (true, { name := "requests".toList, version := none, extras := [],
                    delimiter := "==".toList }) :=
  ⟨rfl,
   c6_no_version_always_newer (fun _ => none)
     { name := "requests".toList, version := none, extras := [],
       delimiter := "==".toList } rfl⟩

/-! ### Claim C10 — lookup and plain string inequality for present versions -/

/-- Claim C10 counterexample: a declared version can be present but empty
(the record parsed from `a==`).  Python's truthiness test `not self.version`
then skips the lookup entirely: with a lookup returning that same (empty)
latest version, the claim predicts the result `False` with the fetched
version stored, but the code returns `True` and stores nothing. -/
theorem c10_counterexample :
    from_string ("a==".toList) =
      some { name := "a".toList, version := some [], extras := [],
             delimiter := "==".toList } ∧
    has_newer_version (fun _ => some [])
      { name := "a".toList, version := some [], extras := [],
        delimiter := "==".toList } =
      some (true, { name := "a".toList, version := some [], extras := [],
                    delimiter := "==".toList }) ∧
    ¬ (has_newer_version (fun _ => some [])
        { name := "a".toList, version := some [], extras := [],
          delimiter := "==".toList } =
       some (([] != ([] : List Char)),
             { name := "a".toList, version := some [], extras := [],
               delimiter := "==".toList, latest_version := some [] })) := by
  refine ⟨by decide, by decide, by decide⟩

/-- Claim C10 (amended): for every record whose declared version is present
and non-empty, `has_newer_version` performs the lookup: on success it
stores the fetched version in `latest_version` and returns exactly the
plain string inequality of fetched vs declared (so an older or
differently-formatted remote version also counts as newer); on lookup
failure the failure propagates. -/
theorem c10_lookup_comparison_amended
    (lookup : List Char → Option (List Char)) (p : Package) (v : List Char)
    (hv : p.version = some v) (hne : v ≠ []) :
    (∀ lv, lookup p.name = some lv →
        has_newer_version lookup p =
          some (lv != v, { p with latest_version := some lv })) ∧
    (lookup p.name = none → has_newer_version lookup p = none) := by
  have hemp : v.isEmpty = false := by
    cases v with
    | nil => exact absurd rfl hne
    | cons a t => rfl
  constructor
  · intro lv hlv
    simp [has_newer_version, hv, hemp, hlv]
  · intro hlv
    simp [has_newer_version, hv, hemp, hlv]

/-- Claim C10 witness: declared `1.0`, remote `2.0`; the lookup happens,
`latest_version` is stored and the result is the string inequality. -/
theorem c10_lookup_comparison_witness :
    ({ name := "a".toList, version := some ("1.0".toList), extras := [],
       delimiter := "==".toList } : Package).version = some ("1.0".toList) ∧
    "1.0".toList ≠ ([] : List Char) ∧
    has_newer_version (fun _ => some ("2.0".toList))
      { name := "a".toList, version := some ("1.0".toList), extras := [],
        delimiter := "==".toList } =
      some (("2.0".toList != "1.0".toList),
            { name := "a".toList, version := some ("1.0".toList), extras := [],
              delimiter := "==".toList, latest_version := some ("2.0".toList) }) :=
  ⟨rfl, by decide,
   (c10_lookup_comparison_amended (fun _ => some ("2.0".toList))
     { name := "a".toList, version := some ("1.0".toList), extras := [],
       delimiter := "==".toList } ("1.0".toList) rfl (by decide)).1
     ("2.0".toList) rfl⟩

/-! ### Claim C8 — invalid document -/

/-- Claim C8: when the parsed document lacks a `project` table or a
`dependencies` key under it, the run prints exactly the invalid-file
diagnostic, performs no write, and returns normally (`some`, no escaping
exception).  The conclusion holds for every lookup — including one that
always fails — which captures that zero remote lookups are performed. -/
theorem c8_invalid_document (content : List Char)
    (lookup : List Char → Option (List Char)) (update_file : Bool)
    (pp : PyProject)
    (h : pp.project = none ∨ ∃ t, pp.project = some t ∧ t.dependencies = none) :
    check_for_updates content pp lookup update_file =
      some { messages := ["Invalid pyproject.toml file.".toList], written := none } := by
  have hb : Option.bind pp.project ProjectTable.dependencies = none := by
    rcases h with h | ⟨t, ht, hdep⟩
    · rw [h]; rfl
    · rw [ht]; simpa using hdep
  unfold check_for_updates
  rw [hb]

/-- Claim C8 witness: a document whose `project` table has no
`dependencies` key, run against a lookup that always fails. -/
theorem c8_invalid_document_witness :
    (∃ t, (⟨some ⟨none⟩⟩ : PyProject).project = some t ∧ t.dependencies = none) ∧
    check_for_updates ("x = 1".toList) ⟨some ⟨none⟩⟩ (fun _ => none) true =
      some { messages := ["Invalid pyproject.toml file.".toList], written := none } :=
  ⟨⟨⟨none⟩, rfl, rfl⟩,
   c8_invalid_document ("x = 1".toList) (fun _ => none) true ⟨some ⟨none⟩⟩
     (Or.inr ⟨⟨none⟩, rfl, rfl⟩)⟩

/-! ### Claim C7 — when the file is written -/

/-- Claim C7 counterexample: the code writes whenever the `updated` flag is
set, not when "the raw text differs from the original".  A document whose
only dependency is the unpinned `requests` triggers the flag (no lookup is
even consulted), the replacement of `requests==None` by `requests==None`
leaves the raw text untouched, and with the persist flag set the file is
still written — with content identical to the original input `[]`. -/
theorem c7_counterexample :
    check_for_updates [] ⟨some ⟨some ["requests".toList]⟩⟩ (fun _ => none) true =
      some { messages :=
               ["Newer version of requests available: None (currently None)".toList,
                "Updating pyproject.toml file...".toList],
             written := some [] } := by
  decide

/-- Claim C7 (amended): a write happens exactly when the persist flag is set
and the run completed over all dependencies (every parse and every lookup
succeeded) with the `updated` flag raised; the written content is the full
final content threaded through the whole update loop.  In every other
outcome — persist flag unset, no dependency flagged, or a parse/lookup
failure part-way — `writtenOf` is `none`, i.e. the file is untouched and
in-memory partial updates are discarded.  (The write may re-write content
equal to the original when a flagged update had no textual effect, see the
counterexample.) -/
theorem c7_single_write_amended (content : List Char) (pp : PyProject)
    (lookup : List Char → Option (List Char)) (update_file : Bool)
    (c : List Char) :
    writtenOf (check_for_updates content pp lookup update_file) = some c ↔
      update_file = true ∧
      ∃ deps packages msgs,
        Option.bind pp.project ProjectTable.dependencies = some deps ∧
        parsePackages deps = some packages ∧
        processPackages lookup packages content false [] = some (msgs, c, true) := by
  constructor
  · intro h
    unfold check_for_updates at h
    cases hb : Option.bind pp.project ProjectTable.dependencies with
    | none => simp [hb, writtenOf] at h
    | some deps =>
      simp only [hb] at h
      cases hpk : parsePackages deps with
      | none => simp [hpk, writtenOf] at h
      | some packages =>
        simp only [hpk] at h
        cases hpr : processPackages lookup packages content false [] with
        | none => simp [hpr, writtenOf] at h
        | some triple =>
          obtain ⟨msgs, c2, updated⟩ := triple
          simp only [hpr] at h
          cases updated with
          | false => simp [writtenOf] at h
          | true =>
            cases update_file with
            | false => simp [writtenOf] at h
            | true =>
              simp [writtenOf] at h
              exact ⟨rfl, deps, packages, msgs, rfl, hpk, h ▸ hpr⟩
  · rintro ⟨huf, deps, packages, msgs, hb, hpk, hpr⟩
    subst huf
    unfold check_for_updates
    simp [hb, hpk, hpr, writtenOf]

/-! ### Claim C9 — idempotence of the update flow -/

/-- Claim C9 counterexample: a document whose only dependency is the
unpinned `pytz`.  The run flags it (no declared version), the replacement
of `pytz==None` by `pytz==None` leaves the raw text untouched, and the
persisted write stores content byte-for-byte identical to the input.  The
second run therefore receives exactly the same file content — hence the
same parsed document — and the same lookup, so it is the very same
computation shown here: it again reports an update and its output does not
contain "No updates found.".  The flow is not idempotent. -/
theorem c9_counterexample :
    check_for_updates ("[project]".toList) ⟨some ⟨some ["pytz".toList]⟩⟩
        (fun _ => some ("2024.1".toList)) true =
      some { messages :=
               ["Newer version of pytz available: None (currently None)".toList,
                "Updating pyproject.toml file...".toList],
             written := some ("[project]".toList) } ∧
    "No updates found.".toList ∉
      ["Newer version of pytz available: None (currently None)".toList,
       "Updating pyproject.toml file...".toList] := by
  refine ⟨by decide, by decide⟩

/-- Each dependency string that is pinned to the lookup's latest version
parses, and the parsed records are pinned likewise. -/
theorem parsePackages_pinned (lookup : List Char → Option (List Char)) :
    ∀ deps : List (List Char),
      (∀ s ∈ deps, pinnedToLatest lookup s = true) →
      ∃ packages, parsePackages deps = some packages ∧
        ∀ p ∈ packages, ∃ v, p.version = some v ∧ v.isEmpty = false ∧
          lookup p.name = some v := by
  intro deps
  induction deps with
  | nil => intro _; exact ⟨[], rfl, by simp⟩
  | cons s rest ih =>
    intro h
    have hs := h s (List.mem_cons_self s rest)
    obtain ⟨packages, hpk, hall⟩ := ih (fun x hx => h x (List.mem_cons_of_mem s hx))
    unfold pinnedToLatest at hs
    cases hfs : from_string s with
    | none => simp [hfs] at hs
    | some p =>
      simp only [hfs] at hs
      cases hv : p.version with
      | none => simp [hv] at hs
      | some v =>
        simp only [hv] at hs
        simp only [Bool.and_eq_true, Bool.not_eq_true', beq_iff_eq] at hs
        refine ⟨p :: packages, ?_, ?_⟩
        · unfold parsePackages; rw [hfs, hpk]
        · intro q hq
          rcases List.mem_cons.mp hq with hql | hqr
          · subst hql; exact ⟨v, hv, hs.1, hs.2⟩
          · exact hall q hqr

/-- The update loop leaves everything untouched over records pinned to the
lookup's latest version: every per-package check returns `False`. -/
theorem processPackages_pinned (lookup : List Char → Option (List Char)) :
    ∀ packages : List Package,
      (∀ p ∈ packages, ∃ v, p.version = some v ∧ v.isEmpty = false ∧
        lookup p.name = some v) →
      ∀ content updated msgs,
        processPackages lookup packages content updated msgs =
          some (msgs, content, updated) := by
  intro packages
  induction packages with
  | nil => intro _ content updated msgs; rfl
  | cons p rest ih =>
    intro h content updated msgs
    obtain ⟨v, hv, hemp, hlk⟩ := h p (List.mem_cons_self p rest)
    have hnew : has_newer_version lookup p =
        some (false, { p with latest_version := some v }) := by
      simp [has_newer_version, hv, hemp, hlk]
    unfold processPackages
    rw [hnew]
    exact ih (fun q hq => h q (List.mem_cons_of_mem p hq)) content updated msgs

/-- Claim C9 (amended): the second run reports exactly "No updates found."
(and writes nothing) whenever the file it reads parses to a dependency
list in which every entry is pinned, with a non-empty declared version,
to exactly the version the (unchanged) lookup reports for its name — the
state the first run leaves behind when its rewrites pin every entry.
Entries without a declared version break idempotence (see the
counterexample): they are re-flagged on every run. -/
theorem c9_second_run_amended (content : List Char) (pp : PyProject)
    (lookup : List Char → Option (List Char)) (update_file : Bool)
    (deps : List (List Char))
    (hb : Option.bind pp.project ProjectTable.dependencies = some deps)
    (hpinned : ∀ s ∈ deps, pinnedToLatest lookup s = true) :
    check_for_updates content pp lookup update_file =
      some { messages := ["No updates found.".toList], written := none } := by
  obtain ⟨packages, hpk, hall⟩ := parsePackages_pinned lookup deps hpinned
  have hpr := processPackages_pinned lookup packages hall content false []
  unfold check_for_updates
  simp [hb, hpk, hpr]

/-- Claim C9 witness: a file already pinned to `a==1.0` with the lookup
reporting `1.0` for `a`: the run reports exactly "No updates found." and
performs no write. -/
theorem c9_second_run_witness :
    Option.bind (⟨some ⟨some ["a==1.0".toList]⟩⟩ : PyProject).project
        ProjectTable.dependencies = some ["a==1.0".toList] ∧
    (∀ s ∈ ["a==1.0".toList],
      pinnedToLatest (fun n => if n = "a".toList then some ("1.0".toList) else none) s
        = true) ∧
    check_for_updates ("d = [..]".toList) ⟨some ⟨some ["a==1.0".toList]⟩⟩
        (fun n => if n = "a".toList then some ("1.0".toList) else none) true =
      some { messages := ["No updates found.".toList], written := none } :=
  ⟨rfl, by decide,
   c9_second_run_amended ("d = [..]".toList) ⟨some ⟨some ["a==1.0".toList]⟩⟩
     (fun n => if n = "a".toList then some ("1.0".toList) else none) true
     ["a==1.0".toList] rfl (by decide)⟩

/-- Claim C7 witness: the amended write characterization instantiated at a
concrete run — dependency `b==2.0`, remote latest `3.0`, persist flag set:
the written content is the fully processed text `b==3.0`. -/
theorem c7_single_write_witness :
    writtenOf (check_for_updates ("b==2.0".toList) ⟨some ⟨some ["b==2.0".toList]⟩⟩
        (fun _ => some ("3.0".toList)) true) = some ("b==3.0".toList) ↔
      true = true ∧
      ∃ deps packages msgs,
        Option.bind (⟨some ⟨some ["b==2.0".toList]⟩⟩ : PyProject).project
            ProjectTable.dependencies = some deps ∧
        parsePackages deps = some packages ∧
        processPackages (fun _ => some ("3.0".toList)) packages ("b==2.0".toList)
            false [] = some (msgs, "b==3.0".toList, true) :=
  c7_single_write_amended ("b==2.0".toList) ⟨some ⟨some ["b==2.0".toList]⟩⟩
    (fun _ => some ("3.0".toList)) true ("b==3.0".toList)
